import Mathlib

/-!
Verification of the resilience and orchestration core of a WhatsApp bot
(`error_handler.py`, `main.py`, `mcp_client.py`).

The Python code is shallowly embedded: each class/function of interest is
translated into an executable Lean definition, time is modelled as an
integer-valued timestamp (seconds), Python exceptions become explicit
outcome values, and Python mutation becomes explicit state passing.
-/

set_option maxRecDepth 2000

namespace WhatsappBot

/-! ## Circuit breaker (`error_handler.py`, class `CircuitBreaker`)

`state ∈ {"CLOSED", "OPEN", "HALF_OPEN"}` becomes an inductive type.
`datetime.now()` values are modelled as integers (`now`), passed in
explicitly at each call.  `CircuitBreaker.call` is split in two phases
mirroring the source: the leading `if self.state == "OPEN"` block
(`cbPre`) and the `try`/`except` body (`cbRun`). -/

inductive CBState where
  | CLOSED
  | OPEN
  | HALF_OPEN
deriving DecidableEq, Repr

structure CircuitBreaker where
  failure_threshold : Nat
  timeout : Int
  failure_count : Nat
  last_failure_time : Option Int
  state : CBState
deriving DecidableEq, Repr

/-- `CircuitBreaker.__init__(failure_threshold, timeout)`. -/
def initBreaker (failure_threshold : Nat) (timeout : Int) : CircuitBreaker :=
  { failure_threshold := failure_threshold
    timeout := timeout
    failure_count := 0
    last_failure_time := none
    state := .CLOSED }

/-- Outcome of the leading `if self.state == "OPEN"` block of
`CircuitBreaker.call`.  `openRejected` is the `raise BotError("Circuit
breaker OPEN - too many failures", ...)` branch; `noTime` is the
`TypeError` Python would raise on `datetime.now() - None`. -/
inductive PreResult where
  | proceed (cb : CircuitBreaker)
  | openRejected
  | noTime
deriving DecidableEq, Repr

def cbPre (cb : CircuitBreaker) (now : Int) : PreResult :=
  if cb.state = .OPEN then
    match cb.last_failure_time with
    | some t =>
        if now - t > cb.timeout then
          .proceed { cb with state := .HALF_OPEN }
        else
          .openRejected
    | none => .noTime
  else
    .proceed cb

/-- The `try`/`except` body of `CircuitBreaker.call`: `ok` tells whether
`func(*args, **kwargs)` returned normally. -/
def cbRun (cb : CircuitBreaker) (now : Int) (ok : Bool) : CircuitBreaker :=
  if ok then
    if cb.state = .HALF_OPEN then
      { cb with state := .CLOSED, failure_count := 0 }
    else
      cb
  else
    let fc := cb.failure_count + 1
    { cb with
        failure_count := fc
        last_failure_time := some now
        state := if fc ≥ cb.failure_threshold then .OPEN else cb.state }

/-- How one call through the breaker ended. -/
inductive CallResult where
  | success
  | opFailed
  | circuitOpen
  | typeError
deriving DecidableEq, Repr

structure CallOut where
  result : CallResult
  cb : CircuitBreaker
  /-- whether the wrapped operation `func` was invoked at all -/
  invoked : Bool
deriving DecidableEq, Repr

/-- `CircuitBreaker.call(func, ...)` where `ok` says whether `func`
succeeds; the exception raised by a failing `func` is re-raised
(`opFailed`). -/
def call (cb : CircuitBreaker) (now : Int) (ok : Bool) : CallOut :=
  match cbPre cb now with
  | .proceed cb2 =>
      { result := if ok then .success else .opFailed
        cb := cbRun cb2 now ok
        invoked := true }
  | .openRejected => { result := .circuitOpen, cb := cb, invoked := false }
  | .noTime => { result := .typeError, cb := cb, invoked := false }

/-- `n` consecutive calls through the breaker whose wrapped operation
always fails, the `i`-th call happening at time `times i`. -/
def iterFail (cb : CircuitBreaker) (times : Nat → Int) : Nat → CircuitBreaker
  | 0 => cb
  | n + 1 => (call (iterFail cb times n) (times n) false).cb

/-- Breaker states reachable from a fresh `CircuitBreaker` by any
sequence of calls. -/
inductive Reachable : CircuitBreaker → Prop where
  | init (th : Nat) (tmo : Int) : Reachable (initBreaker th tmo)
  | step {cb : CircuitBreaker} (now : Int) (ok : Bool) :
      Reachable cb → Reachable (call cb now ok).cb

/-! ## Retry with exponential backoff (`error_handler.py`, `retry_with_backoff`)

The decorated operation is modelled as `op : Nat → Except ε V`, giving the
outcome of each attempt (0-indexed).  The `except exceptions as e` clause —
an `isinstance` test against the configured tuple — is the predicate
`retryable : ε → Bool`.  Delays (`initial_delay * exponential_base **
attempt`, floats in Python, exact rationals here) are recorded rather than
slept.  The Python loop `for attempt in range(max_retries + 1)` retries
while `attempt < max_retries`; the recursion below counts the retries still
allowed in `remaining` (so `remaining = max_retries - attempt`, and
`attempt < max_retries` is `remaining > 0`). -/

structure RetryResult (ε V : Type) where
  /-- value returned, or exception propagated to the caller -/
  result : Except ε V
  /-- how many times the operation was executed -/
  attempts : Nat
  /-- the backoff delays slept, in order -/
  delays : List ℚ
deriving Repr

def retryGo (op : Nat → Except ε V) (retryable : ε → Bool)
    (initial_delay exponential_base : ℚ) :
    (attempt remaining : Nat) → RetryResult ε V
  | attempt, remaining =>
    match op attempt with
    | .ok v => { result := .ok v, attempts := 1, delays := [] }
    | .error e =>
      if retryable e then
        match remaining with
        | 0 =>
            -- loop over, `raise last_exception`
            { result := .error e, attempts := 1, delays := [] }
        | r + 1 =>
            let d := initial_delay * exponential_base ^ attempt
            let rest := retryGo op retryable initial_delay exponential_base
              (attempt + 1) r
            { result := rest.result
              attempts := rest.attempts + 1
              delays := d :: rest.delays }
      else
        -- not matched by `except exceptions`: propagates uncaught
        { result := .error e, attempts := 1, delays := [] }

/-- `retry_with_backoff(max_retries, initial_delay, exponential_base,
exceptions)` applied to `op`, with no circuit breaker configured
(the `else: return await func(...)` path of `async_wrapper`). -/
def retry_with_backoff (max_retries : Nat) (initial_delay exponential_base : ℚ)
    (retryable : ε → Bool) (op : Nat → Except ε V) : RetryResult ε V :=
  retryGo op retryable initial_delay exponential_base 0 max_retries

/-- Errors observable from one attempt routed through
`breaker.call_async(func, ...)`. -/
inductive BreakerErr where
  /-- the wrapped operation raised and the breaker re-raised -/
  | opErr
  /-- the `BotError("Circuit breaker OPEN - too many failures", ...)` raise -/
  | circuitOpen
  /-- `datetime.now() - None` -/
  | timeErr
deriving DecidableEq, Repr

structure RetryCBResult where
  result : Except BreakerErr Unit
  attempts : Nat
  delays : List ℚ
  /-- the breaker state after the wrapper returns -/
  final : CircuitBreaker
deriving Repr

/-- `async_wrapper` when a `circuit_breaker_name` present in
`circuit_breakers` is configured: every attempt goes through
`breaker.call_async`.  `opOk i` is whether the wrapped operation would
succeed on attempt `i`, `times i` the time of attempt `i`. -/
def retryCBGo (opOk : Nat → Bool) (times : Nat → Int)
    (retryable : BreakerErr → Bool) (initial_delay exponential_base : ℚ) :
    (cb : CircuitBreaker) → (attempt remaining : Nat) → RetryCBResult
  | cb, attempt, remaining =>
    let o := call cb (times attempt) (opOk attempt)
    match o.result with
    | .success =>
        { result := .ok (), attempts := 1, delays := [], final := o.cb }
    | r =>
      let e : BreakerErr :=
        match r with
        | .circuitOpen => .circuitOpen
        | .typeError => .timeErr
        | _ => .opErr
      if retryable e then
        match remaining with
        | 0 => { result := .error e, attempts := 1, delays := [], final := o.cb }
        | rr + 1 =>
            let d := initial_delay * exponential_base ^ attempt
            let rest := retryCBGo opOk times retryable initial_delay
              exponential_base o.cb (attempt + 1) rr
            { result := rest.result
              attempts := rest.attempts + 1
              delays := d :: rest.delays
              final := rest.final }
      else
        { result := .error e, attempts := 1, delays := [], final := o.cb }

/-- Breaker-composed retry wrapper, started at attempt 0. -/
def retryWithBreaker (max_retries : Nat) (initial_delay exponential_base : ℚ)
    (retryable : BreakerErr → Bool) (cb : CircuitBreaker)
    (opOk : Nat → Bool) (times : Nat → Int) : RetryCBResult :=
  retryCBGo opOk times retryable initial_delay exponential_base cb 0 max_retries

/-! ## User-facing error mapping (`error_handler.py`, `format_error_for_user`)

A caught Python exception is modelled by its class name (`type(error).__name__`),
its `str(error)` message, and the `user_message` attribute, which only
`BotError` instances carry (`none` for all other exceptions). -/

structure PyError where
  className : String
  msg : String
  user_message : Option String
deriving DecidableEq, Repr

/-- `BotError.__init__(message, user_message=None)`:
`self.user_message = user_message or "Sorry, ..."` (Python `or`: the
default is taken when the argument is `None` or `""`). -/
def mkBotError (className message : String) (user_message : Option String) :
    PyError :=
  { className := className
    msg := message
    user_message := some (match user_message with
      | some s => if s = "" then "Sorry, I encountered an error. Please try again." else s
      | none => "Sorry, I encountered an error. Please try again.") }

/-- Does `needle` start `hay`? (on character lists) -/
def startsWithL : List Char → List Char → Bool
  | [], _ => true
  | _ :: _, [] => false
  | c :: cs, d :: ds => c = d && startsWithL cs ds

/-- Does `needle` occur anywhere in `hay`? (Python `needle in hay`) -/
def containsL (hay needle : List Char) : Bool :=
  if startsWithL needle hay then true
  else
    match hay with
    | [] => false
    | _ :: rest => containsL rest needle

/-- Python `needle in hay` on strings. -/
def strHas (hay needle : String) : Bool :=
  containsL hay.data needle.data

/-- Python `str.lower()` (ASCII suffices for the patterns matched). -/
def pyLower (s : String) : String :=
  s.map Char.toLower

/-- The `error_mappings` dict of `format_error_for_user`. -/
def error_mappings : List (String × String) :=
  [("OperationTimeoutError", "⏱️ The request took too long. Please try again."),
   ("TimeoutError", "⏱️ The request took too long. Please try again."),
   ("ConnectionError", "🔌 Connection failed. Please check your internet and try again."),
   ("HTTPError", "🌐 External service error. Please try again in a moment."),
   ("RateLimitError", "⏸️ Too many requests. Please wait a minute and try again."),
   ("AuthenticationError", "🔐 Authentication failed. Please contact support."),
   ("TranscriptionError", "🎤 Could not transcribe audio. Please try sending text instead."),
   ("ImageProcessingError", "🖼️ Could not process image. Try sending a smaller image.")]

def format_error_for_user (error : PyError) (context : String) : String :=
  -- `if isinstance(error, BotError) and error.user_message:` —
  -- only `BotError`s carry the attribute, and Python truthiness skips ""
  match error.user_message with
  | some um =>
      if um ≠ "" then um else formatRest error context
  | none => formatRest error context
where
  formatRest (error : PyError) (context : String) : String :=
    let error_msg := error.msg
    let lowered := pyLower error_msg
    if strHas lowered "rate limit" || strHas error_msg "429" then
      "⏸️ Rate limit reached. Please wait a moment and try again."
    else if strHas lowered "timeout" || strHas lowered "timed out" then
      "⏱️ Request timed out. Please try again."
    else if strHas lowered "authentication" || strHas lowered "unauthorized"
        || strHas error_msg "401" then
      "🔐 Authentication error. Please try again or contact support."
    else if strHas lowered "not found" || strHas error_msg "404" then
      "❓ Resource not found. Please check your request and try again."
    else
      match error_mappings.lookup error.className with
      | some user_message => user_message
      | none =>
          if context ≠ "" then
            "❌ Error " ++ context ++ ". Please try again or contact support if the issue persists."
          else
            "❌ Something went wrong. Please try again or contact support if the issue persists."

/-! ## Google account token resolution
(`mcp_client.py`, `MCPClient._get_active_google_token`)

The token attributes may be `None` (secret absent) or a string; Python
`if not token` treats both `None` and `""` as absent. -/

/-- Python truthiness of an optional string. -/
def truthy : Option String → Bool
  | some s => s ≠ ""
  | none => false

/-- `_get_active_google_token`: `active` is
`getattr(self, 'active_account', 'personal')` (`none` when the attribute
was never set); `work`, `personal`, `legacy` are
`self.google_oauth_token_work`, `self.google_oauth_token_personal`,
`self.google_oauth_token`. -/
def getActiveGoogleToken (active : Option String)
    (work personal legacy : Option String) : Option String :=
  let a := active.getD "personal"
  let token := if a = "work" then work else personal
  let token := if truthy token then token else work
  let token := if truthy token then token else legacy
  token

/-! ## Conversation history window (`main.py`, `whatsapp_webhook`)

`conversation_history[user_id]` is a Python list of turn dicts; only its
length and order matter here, so the turn type is a parameter. -/

/-- `if len(h) > 10: h = h[-10:]` — the trim applied right after the user
turn is appended. -/
def trimHistory (h : List α) : List α :=
  if h.length > 10 then h.drop (h.length - 10) else h

/-- Lines 390–406: append the inbound user turn, then trim. -/
def appendUserTurn (h : List α) (u : α) : List α :=
  trimHistory (h ++ [u])

/-- One full webhook round: the user turn is appended and trimmed, the
assistant turn (lines 495–498) is appended afterwards with no further
trim. -/
def webhookRound (h : List α) (u a : α) : List α :=
  appendUserTurn h u ++ [a]

/-! ## JSON-shaped tool payloads (`mcp_client.py`)

Tool executors return JSON-shaped Python dicts; `json.dumps` serialises
them into the tool-result content string.  Arrays and objects use
explicit list-like constructors so all recursions stay structural. -/

mutual

inductive JVal where
  | jnull
  | jbool (b : Bool)
  | jnum (n : Int)
  | jstr (s : String)
  | jarr (xs : JList)
  | jobj (fs : JFields)

inductive JList where
  | nil
  | cons (hd : JVal) (tl : JList)

inductive JFields where
  | nil
  | cons (key : String) (val : JVal) (tl : JFields)

end

/-- Field lookup in a JSON object (first match, like a Python dict built
from distinct keys). -/
def lookupField : JFields → String → Option JVal
  | .nil, _ => none
  | .cons k v tl, key => if k = key then some v else lookupField tl key

/-- Does this JSON value have the given top-level object field? -/
def jHasField (j : JVal) (key : String) : Bool :=
  match j with
  | .jobj fs => (lookupField fs key).isSome
  | _ => false

/-- Minimal model of the string escaping of `json.dumps`. -/
def escapeJ (s : String) : String :=
  s.foldl (fun acc c =>
    if c = '\\' then acc ++ "\\\\"
    else if c = '"' then acc ++ "\\\""
    else acc.push c) ""

mutual

/-- `json.dumps` with its default separators. -/
def dumps : JVal → String
  | .jnull => "null"
  | .jbool true => "true"
  | .jbool false => "false"
  | .jnum n => toString n
  | .jstr s => "\"" ++ escapeJ s ++ "\""
  | .jarr xs => "[" ++ dumpsList xs ++ "]"
  | .jobj fs => "\x7b" ++ dumpsFields fs ++ "\x7d"

def dumpsList : JList → String
  | .nil => ""
  | .cons hd .nil => dumps hd
  | .cons hd tl => dumps hd ++ ", " ++ dumpsList tl

def dumpsFields : JFields → String
  | .nil => ""
  | .cons k v .nil => "\"" ++ escapeJ k ++ "\": " ++ dumps v
  | .cons k v tl => "\"" ++ escapeJ k ++ "\": " ++ dumps v ++ ", " ++ dumpsFields tl

end

/-! ## Tool dispatch (`mcp_client.py`, `MCPClient.execute_tool`)

The `elif` chain dispatches on these tool names; each branch calls a
per-provider HTTP implementation (out-of-scope external collaborators),
abstracted by `impl`.  An exception escaping a branch is caught by the
surrounding `except Exception` and converted to an error payload, so
`impl` returns `Except String JVal`. -/

def knownTools : List String :=
  ["todoist_get_tasks", "todoist_create_task", "todoist_complete_task",
   "todoist_update_task", "todoist_delete_task", "todoist_list_projects",
   "gmail_search", "gmail_send", "gmail_read", "gmail_reply",
   "gmail_delete", "gmail_archive", "gmail_mark_read", "gmail_list_labels",
   "gmail_create_label", "gmail_delete_label", "gmail_update_label",
   "gmail_add_label", "gmail_remove_label", "calendar_list_events",
   "calendar_create_event", "calendar_update_event", "calendar_delete_event",
   "calendar_list_calendars", "todoist_list_labels", "todoist_create_label",
   "todoist_create_project", "todoist_update_project", "todoist_delete_project",
   "todoist_list_sections", "todoist_create_section", "todoist_add_comment",
   "todoist_list_comments", "gmail_send_advanced", "gmail_download_attachment",
   "gmail_create_draft", "gmail_list_drafts", "gmail_send_draft",
   "gmail_get_thread", "calendar_create_event_advanced",
   "calendar_search_events", "calendar_check_free_busy",
   "todoist_update_label", "todoist_delete_label", "todoist_update_section",
   "todoist_delete_section", "todoist_update_comment", "todoist_delete_comment",
   "gmail_delete_draft", "gmail_create_filter", "gmail_list_filters",
   "gmail_delete_filter", "calendar_add_attendee", "calendar_remove_attendee",
   "google_maps_search_places", "google_maps_get_directions",
   "google_maps_get_place_details", "google_web_search"]

def execute_tool (impl : String → JVal → Except String JVal)
    (tool_name : String) (tool_input : JVal) : JVal :=
  if knownTools.contains tool_name then
    match impl tool_name tool_input with
    | .ok j => j
    | .error e => .jobj (.cons "error" (.jstr e) .nil)
  else
    .jobj (.cons "error" (.jstr ("Unknown tool: " ++ tool_name)) .nil)

/-! ## Tool execution loop (`mcp_client.py`, `MCPClient.chat_with_tools`)

The Anthropic API is an external collaborator: `api turn messages` is the
response of the model call made on loop turn `turn` with the current
message list.  The caller passes in its own message list; the source does
`current_messages = messages.copy()` and appends only to the copy, so the
state carries both lists explicitly. -/

structure ToolUseB where
  id : String
  name : String
  input : JVal

inductive CBlock where
  | text (s : String)
  | toolUse (t : ToolUseB)

structure MResp where
  stop_reason : String
  content : List CBlock

structure ToolResultRec where
  tool_use_id : String
  content : String

inductive MsgContent where
  | str (s : String)
  | blocks (bs : List CBlock)
  | results (rs : List ToolResultRec)

structure Msg where
  role : String
  content : MsgContent

structure ChatSt where
  /-- the list object the caller passed in (`messages`) -/
  caller : List Msg
  /-- the internal copy (`current_messages`) -/
  working : List Msg

/-- `"".join` of the text blocks of a final response. -/
def concatText (bs : List CBlock) : String :=
  bs.foldl (fun acc b => match b with | .text s => acc ++ s | _ => acc) ""

/-- The tool results collected for one `tool_use` response, in content
order, each carrying `json.dumps(result)`. -/
def collectToolResults (impl : String → JVal → Except String JVal)
    (bs : List CBlock) : List ToolResultRec :=
  bs.filterMap (fun b =>
    match b with
    | .toolUse t =>
        some { tool_use_id := t.id
               content := dumps (execute_tool impl t.name t.input) }
    | .text _ => none)

/-- The `for turn in range(max_turns)` loop of `chat_with_tools`:
`fuel` is the number of turns left.  Appends go to `working` only. -/
def chatLoopSt (api : Nat → List Msg → MResp)
    (impl : String → JVal → Except String JVal) :
    (turn fuel : Nat) → ChatSt → String × ChatSt
  | _, 0, st =>
      ("I apologize, but I\x27m having trouble completing that request. Please try again.", st)
  | turn, fuel + 1, st =>
      let resp := api turn st.working
      if resp.stop_reason = "tool_use" then
        let tool_results := collectToolResults impl resp.content
        let st2 : ChatSt :=
          { st with working := st.working ++
              [{ role := "assistant", content := .blocks resp.content },
               { role := "user", content := .results tool_results }] }
        chatLoopSt api impl (turn + 1) fuel st2
      else
        (concatText resp.content, st)

/-- `chat_with_tools(messages, system_prompt, max_turns, active_account)`:
the working list starts as a copy of the caller list. -/
def chat_with_tools (api : Nat → List Msg → MResp)
    (impl : String → JVal → Except String JVal)
    (messages : List Msg) (max_turns : Nat) : String × ChatSt :=
  chatLoopSt api impl 0 max_turns { caller := messages, working := messages }

/-! ## Helper lemmas -/

/-- Every value of the `error_mappings` dict is a non-empty message. -/
lemma lookup_mappings_ne_empty (cn s : String)
    (h : error_mappings.lookup cn = some s) : s ≠ "" := by
  simp only [error_mappings, List.lookup] at h
  repeat' split at h
  all_goals first
    | (injection h with h; subst h; decide)
    | exact absurd h (by simp)

/-- A string with a non-empty left part is non-empty. -/
lemma str_append_ne_empty (a b : String) (h : a.length ≠ 0) : a ++ b ≠ "" := by
  intro hab
  have h0 : (a ++ b).length = 0 := by rw [hab]; rfl
  rw [String.length_append] at h0
  omega

/-- An OPEN breaker still inside its cooldown rejects the call without
invoking the operation and without changing state. -/
lemma call_open_rejected (cb : CircuitBreaker) (now t : Int) (ok : Bool)
    (hs : cb.state = .OPEN) (hl : cb.last_failure_time = some t)
    (ht : now - t ≤ cb.timeout) :
    call cb now ok = { result := .circuitOpen, cb := cb, invoked := false } := by
  unfold call cbPre
  rw [hs, hl]
  simp [not_lt.mpr ht]

/-- The loop only appends to the working list and never touches the
caller list. -/
lemma chatLoopSt_frame (api : Nat → List Msg → MResp)
    (impl : String → JVal → Except String JVal) :
    ∀ (fuel turn : Nat) (st : ChatSt),
      (chatLoopSt api impl turn fuel st).2.caller = st.caller ∧
      ∃ tail, (chatLoopSt api impl turn fuel st).2.working = st.working ++ tail := by
  intro fuel
  induction fuel with
  | zero => intro turn st; exact ⟨rfl, [], by simp [chatLoopSt]⟩
  | succ n ih =>
      intro turn st
      simp only [chatLoopSt]
      split
      · next h =>
          obtain ⟨hc, tail, hw⟩ := ih (turn + 1) _
          exact ⟨hc, _, hw.trans (List.append_assoc _ _ _)⟩
      · exact ⟨rfl, [], by simp⟩

/-- A `proceed` outcome of the OPEN-check phase changes at most the
state (OPEN to HALF_OPEN) and nothing else. -/
lemma cbPre_proceed {cb cb2 : CircuitBreaker} {now : Int}
    (h : cbPre cb now = .proceed cb2) :
    cb2.failure_count = cb.failure_count ∧
    cb2.failure_threshold = cb.failure_threshold ∧
    cb2.timeout = cb.timeout ∧
    cb2.last_failure_time = cb.last_failure_time ∧
    (cb2.state = cb.state ∨ (cb.state = .OPEN ∧ cb2.state = .HALF_OPEN)) := by
  unfold cbPre at h
  by_cases hs : cb.state = .OPEN
  · rw [if_pos hs] at h
    rcases hl : cb.last_failure_time with _ | t
    · rw [hl] at h
      exact absurd h (by simp)
    · rw [hl] at h
      dsimp only at h
      by_cases ht : now - t > cb.timeout
      · rw [if_pos ht] at h
        injection h with h
        subst h
        exact ⟨rfl, rfl, rfl, rfl, Or.inr ⟨hs, rfl⟩⟩
      · rw [if_neg ht] at h
        exact absurd h (by simp)
  · rw [if_neg hs] at h
    injection h with h
    subst h
    exact ⟨rfl, rfl, rfl, rfl, Or.inl rfl⟩

/-- When the OPEN-check proceeds, `call` runs the operation on the
(possibly HALF_OPEN) breaker. -/
lemma call_of_proceed {cb cb2 : CircuitBreaker} {now : Int}
    (h : cbPre cb now = .proceed cb2) (ok : Bool) :
    call cb now ok =
      { result := if ok then .success else .opFailed
        cb := cbRun cb2 now ok
        invoked := true } := by
  unfold call
  rw [h]

/-- `cbPre` on a breaker that is not OPEN just proceeds unchanged. -/
lemma cbPre_not_open {cb : CircuitBreaker} (now : Int)
    (h : cb.state ≠ .OPEN) : cbPre cb now = .proceed cb := by
  unfold cbPre
  rw [if_neg h]

/-- `cbPre` on an OPEN breaker whose cooldown elapsed lazily moves it to
HALF_OPEN. -/
lemma cbPre_open_elapsed {cb : CircuitBreaker} {now t : Int}
    (hs : cb.state = .OPEN) (hl : cb.last_failure_time = some t)
    (ht : now - t > cb.timeout) :
    cbPre cb now = .proceed { cb with state := .HALF_OPEN } := by
  unfold cbPre
  rw [if_pos hs, hl]
  dsimp only
  rw [if_pos ht]

/-- The `except` branch of the call body. -/
lemma cbRun_fail (cb : CircuitBreaker) (now : Int) :
    cbRun cb now false =
      { cb with
          failure_count := cb.failure_count + 1
          last_failure_time := some now
          state := if cb.failure_count + 1 ≥ cb.failure_threshold
                   then .OPEN else cb.state } := by
  unfold cbRun
  simp

/-- A success observed outside HALF_OPEN changes nothing. -/
lemma cbRun_ok_not_half (cb : CircuitBreaker) (now : Int)
    (h : cb.state ≠ .HALF_OPEN) : cbRun cb now true = cb := by
  unfold cbRun
  simp [h]

/-- A success observed in HALF_OPEN closes the breaker and resets the
count. -/
lemma cbRun_ok_half (cb : CircuitBreaker) (now : Int)
    (h : cb.state = .HALF_OPEN) :
    cbRun cb now true = { cb with state := .CLOSED, failure_count := 0 } := by
  unfold cbRun
  simp [h]

/-- One call preserves the reachable-state invariant: whenever the
breaker is OPEN or HALF_OPEN, `failure_count` has reached the
threshold. -/
lemma call_preserves_inv (cb : CircuitBreaker) (now : Int) (ok : Bool)
    (ih : cb.state = .OPEN ∨ cb.state = .HALF_OPEN →
      cb.failure_threshold ≤ cb.failure_count) :
    (call cb now ok).cb.state = .OPEN ∨ (call cb now ok).cb.state = .HALF_OPEN →
      (call cb now ok).cb.failure_threshold ≤ (call cb now ok).cb.failure_count := by
  rcases hpre : cbPre cb now with cb2 | _ | _
  · obtain ⟨hcn, hth, -, -, hst⟩ := cbPre_proceed hpre
    rw [call_of_proceed hpre ok]
    rcases ok with _ | _
    · rw [cbRun_fail]
      intro hant
      dsimp only at hant ⊢
      by_cases hcross : cb2.failure_count + 1 ≥ cb2.failure_threshold
      · omega
      · rw [if_neg hcross] at hant
        have hcb : cb.state = .OPEN ∨ cb.state = .HALF_OPEN := by
          rcases hst with h | ⟨h1, _⟩
          · rcases hant with ha | ha
            · exact Or.inl (h ▸ ha)
            · exact Or.inr (h ▸ ha)
          · exact Or.inl h1
        have := ih hcb
        omega
    · by_cases hh : cb2.state = .HALF_OPEN
      · rw [cbRun_ok_half _ _ hh]
        intro hc
        rcases hc with h | h <;> simp at h
      · rw [cbRun_ok_not_half _ _ hh]
        intro hc
        rcases hst with h | ⟨h1, h2⟩
        · rw [hcn, hth]
          exact ih (h ▸ hc)
        · exact absurd h2 hh
  · unfold call
    rw [hpre]
    exact ih
  · unfold call
    rw [hpre]
    exact ih

/-- Reachable-state invariant of the breaker: in OPEN or HALF_OPEN state,
`failure_count ≥ failure_threshold`. -/
lemma reachable_inv {cb : CircuitBreaker} (h : Reachable cb) :
    cb.state = .OPEN ∨ cb.state = .HALF_OPEN →
      cb.failure_threshold ≤ cb.failure_count := by
  induction h with
  | init th tmo => intro hc; rcases hc with h | h <;> simp [initBreaker] at h
  | step now ok hr ih => exact call_preserves_inv _ now ok ih

/-- Trajectory of a fresh breaker under consecutively failing calls:
before the threshold it stays CLOSED counting failures, from the
threshold on it is OPEN with a recorded failure time. -/
lemma iterFail_spec (th : Nat) (tmo : Int) (times : Nat → Int) (hth : 1 ≤ th) :
    ∀ n,
      (iterFail (initBreaker th tmo) times n).failure_threshold = th ∧
      (n < th → (iterFail (initBreaker th tmo) times n).state = .CLOSED ∧
                (iterFail (initBreaker th tmo) times n).failure_count = n) ∧
      (th ≤ n → (iterFail (initBreaker th tmo) times n).state = .OPEN ∧
                th ≤ (iterFail (initBreaker th tmo) times n).failure_count ∧
                (iterFail (initBreaker th tmo) times n).last_failure_time.isSome
                  = true) := by
  intro n
  induction n with
  | zero =>
      exact ⟨rfl, fun _ => ⟨rfl, rfl⟩, fun h => absurd h (by omega)⟩
  | succ n ih =>
      obtain ⟨hth', hc, ho⟩ := ih
      by_cases hn : n < th
      · obtain ⟨hs, hcount⟩ := hc hn
        have hstep : iterFail (initBreaker th tmo) times (n + 1) =
            { iterFail (initBreaker th tmo) times n with
                failure_count := n + 1
                last_failure_time := some (times n)
                state := if th ≤ n + 1 then .OPEN else .CLOSED } := by
          simp only [iterFail]
          unfold call cbPre cbRun
          simp [hs, hcount, hth']
        rw [hstep]
        refine ⟨by simp [hth'], ?_, ?_⟩
        · intro h1
          have hlt : ¬ th ≤ n + 1 := by omega
          simp [hlt]
        · intro h1
          simp [h1]
      · push_neg at hn
        obtain ⟨hs, hcnt, hlast⟩ := ho hn
        obtain ⟨t, ht⟩ := Option.isSome_iff_exists.mp hlast
        by_cases helapsed :
            times n - t > (iterFail (initBreaker th tmo) times n).timeout
        · have hstep : iterFail (initBreaker th tmo) times (n + 1) =
              { iterFail (initBreaker th tmo) times n with
                  failure_count :=
                    (iterFail (initBreaker th tmo) times n).failure_count + 1
                  last_failure_time := some (times n)
                  state := .OPEN } := by
            simp only [iterFail]
            unfold call cbPre cbRun
            have hgeq : (iterFail (initBreaker th tmo) times n).failure_threshold
                ≤ (iterFail (initBreaker th tmo) times n).failure_count + 1 := by
              omega
            simp [hs, ht, helapsed, hgeq]
          rw [hstep]
          refine ⟨by simp [hth'], fun h => absurd hn (by omega), fun _ => ?_⟩
          exact ⟨rfl, by simp; omega, rfl⟩
        · push_neg at helapsed
          have hstep : iterFail (initBreaker th tmo) times (n + 1) =
              iterFail (initBreaker th tmo) times n := by
            simp only [iterFail]
            rw [call_open_rejected _ _ t false hs ht helapsed]
          rw [hstep]
          exact ⟨hth', fun h => absurd hn (by omega), fun _ => ⟨hs, hcnt, hlast⟩⟩

/-- The retry loop executes the operation at most once more than the
retries it still has. -/
lemma retryGo_attempts_le (op : Nat → Except ε V) (retryable : ε → Bool)
    (d0 b : ℚ) :
    ∀ (remaining attempt : Nat),
      (retryGo op retryable d0 b attempt remaining).attempts ≤ remaining + 1 := by
  intro remaining
  induction remaining with
  | zero =>
      intro attempt
      rw [retryGo]
      rcases hop : op attempt with e | v
      · dsimp only
        by_cases hr : retryable e
        · simp [hr]
        · simp [hr]
      · simp
  | succ r ih =>
      intro attempt
      rw [retryGo]
      rcases hop : op attempt with e | v
      · dsimp only
        by_cases hr : retryable e
        · rw [if_pos hr]
          dsimp only
          have := ih (attempt + 1)
          omega
        · rw [if_neg hr]
          simp
      · simp

/-- When every attempt fails with a retryable error, the loop uses all
attempts, sleeps the full exponential schedule, and propagates the error
of the last attempt. -/
lemma retryGo_all_fail (op : Nat → Except ε V) (retryable : ε → Bool)
    (d0 b : ℚ) (err : Nat → ε) :
    ∀ (remaining attempt : Nat),
      (∀ k, attempt ≤ k → k ≤ attempt + remaining →
        op k = .error (err k) ∧ retryable (err k) = true) →
      retryGo op retryable d0 b attempt remaining =
        { result := .error (err (attempt + remaining))
          attempts := remaining + 1
          delays := (List.range remaining).map
            (fun i => d0 * b ^ (attempt + i)) } := by
  intro remaining
  induction remaining with
  | zero =>
      intro attempt h
      obtain ⟨hop, hr⟩ := h attempt le_rfl (by omega)
      rw [retryGo, hop]
      dsimp only
      rw [if_pos hr]
      simp
  | succ r ih =>
      intro attempt h
      obtain ⟨hop, hr⟩ := h attempt le_rfl (by omega)
      rw [retryGo, hop]
      dsimp only
      rw [if_pos hr]
      rw [ih (attempt + 1) (fun k h1 h2 => h k (by omega) (by omega))]
      have hidx : attempt + 1 + r = attempt + (r + 1) := by omega
      have hdel : (d0 * b ^ attempt) ::
          (List.range r).map (fun i => d0 * b ^ (attempt + 1 + i)) =
          (List.range (r + 1)).map (fun i => d0 * b ^ (attempt + i)) := by
        rw [List.range_succ_eq_map, List.map_cons, List.map_map]
        congr 1
        refine List.map_congr_left ?_
        intro i hi
        simp only [Function.comp_apply]
        have hh : attempt + 1 + i = attempt + (i + 1) := by omega
        rw [hh]
      rw [hidx, hdel]

/-- A non-retryable error at attempt `j`, after `j` retryable failures,
aborts the loop immediately with that error. -/
lemma retryGo_abort (op : Nat → Except ε V) (retryable : ε → Bool)
    (d0 b : ℚ) (err : Nat → ε) (e : ε) :
    ∀ (j remaining attempt : Nat),
      j ≤ remaining →
      (∀ k, attempt ≤ k → k < attempt + j →
        op k = .error (err k) ∧ retryable (err k) = true) →
      op (attempt + j) = .error e → retryable e = false →
      retryGo op retryable d0 b attempt remaining =
        { result := .error e
          attempts := j + 1
          delays := (List.range j).map (fun i => d0 * b ^ (attempt + i)) } := by
  intro j
  induction j with
  | zero =>
      intro remaining attempt hj hpre hej hne
      rw [Nat.add_zero] at hej
      rw [retryGo, hej]
      dsimp only
      simp [hne]
  | succ jj ih =>
      intro remaining attempt hj hpre hej hne
      rcases remaining with _ | rr
      · omega
      obtain ⟨hop, hr⟩ := hpre attempt le_rfl (by omega)
      rw [retryGo, hop]
      dsimp only
      rw [if_pos hr]
      rw [ih rr (attempt + 1) (by omega)
        (fun k h1 h2 => hpre k (by omega) (by omega))
        (by have hh : attempt + 1 + jj = attempt + (jj + 1) := by omega
            rw [hh]; exact hej)
        hne]
      have hdel : (d0 * b ^ attempt) ::
          (List.range jj).map (fun i => d0 * b ^ (attempt + 1 + i)) =
          (List.range (jj + 1)).map (fun i => d0 * b ^ (attempt + i)) := by
        rw [List.range_succ_eq_map, List.map_cons, List.map_map]
        congr 1
        refine List.map_congr_left ?_
        intro i hi
        simp only [Function.comp_apply]
        have hh : attempt + 1 + i = attempt + (i + 1) := by omega
        rw [hh]
      rw [hdel]

/-- With the all-catching default `exceptions=(Exception,)`, an OPEN
breaker inside its cooldown makes every attempt fail with the
circuit-open error, and the wrapper retries them all, sleeping the full
backoff schedule. -/
lemma retryCBGo_open_retried (opOk : Nat → Bool) (times : Nat → Int)
    (d0 b : ℚ) (cb : CircuitBreaker) (t : Int)
    (hs : cb.state = .OPEN) (hl : cb.last_failure_time = some t) :
    ∀ (remaining attempt : Nat),
      (∀ k, attempt ≤ k → k ≤ attempt + remaining → times k - t ≤ cb.timeout) →
      retryCBGo opOk times (fun _ => true) d0 b cb attempt remaining =
        { result := .error .circuitOpen
          attempts := remaining + 1
          delays := (List.range remaining).map (fun i => d0 * b ^ (attempt + i))
          final := cb } := by
  intro remaining
  induction remaining with
  | zero =>
      intro attempt h
      rw [retryCBGo,
        call_open_rejected cb (times attempt) t (opOk attempt) hs hl
          (h attempt le_rfl (by omega))]
      simp
  | succ r ih =>
      intro attempt h
      rw [retryCBGo,
        call_open_rejected cb (times attempt) t (opOk attempt) hs hl
          (h attempt le_rfl (by omega))]
      dsimp only
      rw [ih (attempt + 1) (fun k h1 h2 => h k (by omega) (by omega))]
      simp only [if_true]
      have hdel : (d0 * b ^ attempt) ::
          (List.range r).map (fun i => d0 * b ^ (attempt + 1 + i)) =
          (List.range (r + 1)).map (fun i => d0 * b ^ (attempt + i)) := by
        rw [List.range_succ_eq_map, List.map_cons, List.map_map]
        congr 1
        refine List.map_congr_left ?_
        intro i hi
        simp only [Function.comp_apply]
        have hh : attempt + 1 + i = attempt + (i + 1) := by omega
        rw [hh]
      rw [hdel]

/-- When the configured exceptions tuple does not cover the circuit-open
error, the wrapper fails fast on the first rejected attempt. -/
lemma retryCBGo_failfast (opOk : Nat → Bool) (times : Nat → Int)
    (retryableB : BreakerErr → Bool) (d0 b : ℚ) (cb : CircuitBreaker)
    (t : Int) (hs : cb.state = .OPEN) (hl : cb.last_failure_time = some t)
    (hnb : retryableB .circuitOpen = false) (remaining attempt : Nat)
    (htm : times attempt - t ≤ cb.timeout) :
    retryCBGo opOk times retryableB d0 b cb attempt remaining =
      { result := .error .circuitOpen, attempts := 1, delays := []
        final := cb } := by
  rw [retryCBGo,
    call_open_rejected cb (times attempt) t (opOk attempt) hs hl htm]
  dsimp only
  simp [hnb]

/-! ## Claims -/

/-- C1 (amended): in `whatsapp_webhook` the history is trimmed to its last
10 turns — evicting the oldest first — right after the user turn is
appended, so at most 10 turns are ever sent to the model; the assistant
turn is then appended without a further trim, so when the handler
finishes, the stored history has at most 11 turns (not 10). -/
theorem claim_C1_amended (h : List α) (u a : α) :
    (appendUserTurn h u).length ≤ 10 ∧
    List.IsSuffix (appendUserTurn h u) (h ++ [u]) ∧
    (webhookRound h u a).length ≤ 11 := by
  have key : (appendUserTurn h u).length ≤ 10 ∧
      List.IsSuffix (appendUserTurn h u) (h ++ [u]) := by
    unfold appendUserTurn trimHistory
    split
    · next hgt => exact ⟨by simp; omega, List.drop_suffix _ _⟩
    · next hle => exact ⟨by omega, List.suffix_rfl⟩
  refine ⟨key.1, key.2, ?_⟩
  unfold webhookRound
  have := key.1
  simp
  omega

/-- C1 fails as stated: starting from an empty history, six webhook rounds
(user turn appended and trimmed, assistant turn appended untrimmed) leave
11 stored turns, more than the claimed window of 10. -/
theorem claim_C1_counterexample :
    (webhookRound (webhookRound (webhookRound (webhookRound (webhookRound
       (webhookRound ([] : List Nat) 0 1) 2 3) 4 5) 6 7) 8 9) 10 11).length
      = 11 ∧ ¬ (webhookRound (webhookRound (webhookRound (webhookRound
        (webhookRound (webhookRound ([] : List Nat) 0 1) 2 3) 4 5) 6 7)
        8 9) 10 11).length ≤ 10 := by
  constructor
  · rfl
  · decide

/-- C3: from a fresh CLOSED breaker, any run of `n ≥ failure_threshold`
consecutive failing calls (threshold at least 1, as all breakers in the
repository configure) leaves the breaker OPEN; and any call against an
OPEN breaker while `now - last_failure_time < timeout` is rejected
immediately with the circuit-open error, without invoking the wrapped
operation and without changing the breaker. -/
theorem claim_C3_trip_and_reject (th n : Nat) (tmo : Int) (times : Nat → Int)
    (hth : 1 ≤ th) (hn : th ≤ n) :
    (iterFail (initBreaker th tmo) times n).state = .OPEN ∧
    (∀ (cb : CircuitBreaker) (now t : Int) (ok : Bool),
      cb.state = .OPEN → cb.last_failure_time = some t → now - t < cb.timeout →
      call cb now ok = { result := .circuitOpen, cb := cb, invoked := false }) := by
  refine ⟨((iterFail_spec th tmo times hth n).2.2 hn).1, ?_⟩
  intro cb now t ok hs hl ht
  exact call_open_rejected cb now t ok hs hl (le_of_lt ht)

/-- Witness for C3: threshold 1, one failing call at time 0 opens the
breaker; a call at time 30 (timeout 60) is rejected unchanged. -/
theorem claim_C3_witness :
    (iterFail (initBreaker 1 60) (fun _ => 0) 1).state = .OPEN ∧
    call { failure_threshold := 1, timeout := 60, failure_count := 1,
           last_failure_time := some 0, state := .OPEN } 30 true =
      { result := .circuitOpen,
        cb := { failure_threshold := 1, timeout := 60, failure_count := 1,
                last_failure_time := some 0, state := .OPEN },
        invoked := false } := by
  have h := claim_C3_trip_and_reject 1 1 60 (fun _ => 0) (by decide) (by decide)
  exact ⟨h.1, h.2 _ 30 0 true rfl rfl (by decide)⟩

/-- C4: for a reachable OPEN breaker whose `openTimeout` has elapsed past
`lastFailureTime`, the next call lazily moves the state to HALF_OPEN and
invokes the operation; a success closes the breaker and resets
`failure_count` to 0; a failure re-opens it and resets `lastFailureTime`
to the current time (using the reachable-state fact that
`failure_count ≥ failure_threshold` whenever the state is HALF_OPEN). -/
theorem claim_C4_half_open_probe (cb : CircuitBreaker) (t now : Int)
    (hr : Reachable cb) (hs : cb.state = .OPEN)
    (hl : cb.last_failure_time = some t) (ht : now - t > cb.timeout) :
    cbPre cb now = .proceed { cb with state := .HALF_OPEN } ∧
    (∀ ok, (call cb now ok).invoked = true) ∧
    (call cb now true).cb = { cb with state := .CLOSED, failure_count := 0 } ∧
    (call cb now false).cb =
      { cb with
          failure_count := cb.failure_count + 1
          last_failure_time := some now
          state := .OPEN } := by
  have hpre : cbPre cb now = .proceed { cb with state := .HALF_OPEN } :=
    cbPre_open_elapsed hs hl ht
  have hcnt : cb.failure_threshold ≤ cb.failure_count :=
    reachable_inv hr (Or.inl hs)
  refine ⟨hpre, ?_, ?_, ?_⟩
  · intro ok
    rw [call_of_proceed hpre ok]
  · rw [call_of_proceed hpre true]
    dsimp only
    rw [cbRun_ok_half _ _ rfl]
  · rw [call_of_proceed hpre false]
    dsimp only
    rw [cbRun_fail]
    have hcross : cb.failure_count + 1 ≥ cb.failure_threshold := by omega
    simp [hcross]

/-- Witness for C4: a reachable OPEN breaker (threshold 1, timeout 10,
tripped at time 0) probed at time 11, in both the success and the failure
outcome. -/
theorem claim_C4_witness :
    cbPre { failure_threshold := 1, timeout := 10, failure_count := 1,
            last_failure_time := some 0, state := .OPEN } 11 =
      .proceed { failure_threshold := 1, timeout := 10, failure_count := 1,
                 last_failure_time := some 0, state := .HALF_OPEN } ∧
    (call { failure_threshold := 1, timeout := 10, failure_count := 1,
            last_failure_time := some 0, state := .OPEN } 11 true).cb =
      { failure_threshold := 1, timeout := 10, failure_count := 0,
        last_failure_time := some 0, state := .CLOSED } ∧
    (call { failure_threshold := 1, timeout := 10, failure_count := 1,
            last_failure_time := some 0, state := .OPEN } 11 false).cb =
      { failure_threshold := 1, timeout := 10, failure_count := 2,
        last_failure_time := some 11, state := .OPEN } := by
  have hreach : Reachable { failure_threshold := 1, timeout := 10,
                            failure_count := 1, last_failure_time := some 0,
                            state := .OPEN } := by
    have h0 := Reachable.step 0 false (Reachable.init 1 10)
    have he : (call (initBreaker 1 10) 0 false).cb =
        { failure_threshold := 1, timeout := 10, failure_count := 1,
          last_failure_time := some 0, state := .OPEN } := by decide
    rwa [he] at h0
  have h := claim_C4_half_open_probe _ 0 11 hreach rfl rfl (by decide)
  refine ⟨h.1, ?_, ?_⟩
  · rw [h.2.2.1]
  · rw [h.2.2.2]

/-- C5 (amended): a call that succeeds while the breaker is CLOSED leaves
the breaker — in particular `failure_count` — completely unchanged (it is
not reset to 0 and need not equal 0); a call that fails increments
`failure_count` by one and changes the state only if the post-increment
count reaches `failure_threshold`. -/
theorem claim_C5_amended (cb : CircuitBreaker) (now : Int)
    (h : cb.state = .CLOSED) :
    call cb now true = { result := .success, cb := cb, invoked := true } ∧
    (call cb now false).cb =
      { cb with
          failure_count := cb.failure_count + 1
          last_failure_time := some now
          state := if cb.failure_count + 1 ≥ cb.failure_threshold
                   then .OPEN else .CLOSED } := by
  refine ⟨?_, ?_⟩ <;> simp [call, cbPre, cbRun, h]

/-- C5 fails as stated: after one failure (threshold 5) the breaker is
still CLOSED with `failure_count = 1`; a successful call observed in that
CLOSED state leaves `failure_count` at 1, not 0. -/
theorem claim_C5_counterexample :
    (call (initBreaker 5 60) 0 false).cb.state = .CLOSED ∧
    (call (call (initBreaker 5 60) 0 false).cb 1 true).result = .success ∧
    (call (call (initBreaker 5 60) 0 false).cb 1 true).cb.failure_count = 1 ∧
    (call (call (initBreaker 5 60) 0 false).cb 1 true).cb.failure_count ≠ 0 := by
  decide

/-- Witness for C5 (amended) at a concrete CLOSED breaker. -/
theorem claim_C5_witness :
    call (initBreaker 5 60) 7 true
      = { result := .success, cb := initBreaker 5 60, invoked := true } ∧
    (call (initBreaker 5 60) 7 false).cb =
      { initBreaker 5 60 with
          failure_count := 1, last_failure_time := some 7, state := .CLOSED } := by
  have h := claim_C5_amended (initBreaker 5 60) 7 rfl
  refine ⟨h.1, ?_⟩
  rw [h.2]
  decide

/-- C9 (amended): `_get_active_google_token` resolves the requested
account token (work token when the active account is "work", the personal
token otherwise), then falls back to the work token, then to the legacy
single-account token; when none of these is a non-empty string it simply
returns the legacy value (possibly `None`) — no `AuthenticationError`
exists in `mcp_client.py`, and an absent credential is returned to the
caller. -/
theorem claim_C9_amended (active work personal legacy : Option String) :
    (truthy (if active.getD "personal" = "work" then work else personal) = true →
      getActiveGoogleToken active work personal legacy =
        (if active.getD "personal" = "work" then work else personal)) ∧
    (truthy (if active.getD "personal" = "work" then work else personal) = false →
      truthy work = true →
      getActiveGoogleToken active work personal legacy = work) ∧
    (truthy (if active.getD "personal" = "work" then work else personal) = false →
      truthy work = false →
      getActiveGoogleToken active work personal legacy = legacy) := by
  refine ⟨?_, ?_, ?_⟩
  · intro h1
    simp [getActiveGoogleToken, h1]
  · intro h1 h2
    simp [getActiveGoogleToken, h1, h2]
  · intro h1 h2
    simp [getActiveGoogleToken, h1, h2]

/-- C9 fails as stated: with no token configured at all, the resolution
returns `None` (a falsy, absent credential) instead of failing with
`AuthenticationError`. -/
theorem claim_C9_counterexample :
    getActiveGoogleToken none none none none = none ∧
    truthy (getActiveGoogleToken none none none none) = false := by
  decide

/-- Witness for C9 (amended) on concrete token configurations. -/
theorem claim_C9_witness :
    getActiveGoogleToken (some "work") (some "tokW") (some "tokP") none
      = some "tokW" ∧
    getActiveGoogleToken (some "personal") none (some "tokP") none
      = some "tokP" ∧
    getActiveGoogleToken (some "personal") (some "tokW") none none
      = some "tokW" ∧
    getActiveGoogleToken (some "personal") none none (some "tokL")
      = some "tokL" := by
  refine ⟨?_, ?_, ?_, ?_⟩
  · exact (claim_C9_amended (some "work") (some "tokW") (some "tokP") none).1
      (by decide)
  · exact (claim_C9_amended (some "personal") none (some "tokP") none).1
      (by decide)
  · exact (claim_C9_amended (some "personal") (some "tokW") none none).2.1
      (by decide) (by decide)
  · exact (claim_C9_amended (some "personal") none none (some "tokL")).2.2
      (by decide) (by decide)

/-- C10: `chat_with_tools` never mutates the callers message list — the
working copy (`current_messages = messages.copy()`) receives all appends,
growing append-only, and the callers list is unchanged whether the loop
ends in a final answer or in the max-turns fallback. -/
theorem claim_C10_no_mutation (api : Nat → List Msg → MResp)
    (impl : String → JVal → Except String JVal)
    (messages : List Msg) (max_turns : Nat) :
    (chat_with_tools api impl messages max_turns).2.caller = messages ∧
    ∃ tail, (chat_with_tools api impl messages max_turns).2.working
      = messages ++ tail := by
  exact chatLoopSt_frame api impl max_turns 0 { caller := messages, working := messages }

/-- C2 (amended): for a tool name not in the dispatch table,
`execute_tool` returns — without raising — the structured failure payload
with an `error` field describing the unknown tool but with no `success`
field, and `chat_with_tools` surfaces that payload, serialised, as a tool
result in the messages handed to the next model turn instead of aborting
the loop. -/
theorem claim_C2_amended (impl : String → JVal → Except String JVal)
    (tool_name : String) (hn : knownTools.contains tool_name = false)
    (tool_input : JVal) (api : Nat → List Msg → MResp)
    (turn fuel : Nat) (st : ChatSt) :
    execute_tool impl tool_name tool_input =
      .jobj (.cons "error" (.jstr ("Unknown tool: " ++ tool_name)) .nil) ∧
    jHasField (execute_tool impl tool_name tool_input) "error" = true ∧
    jHasField (execute_tool impl tool_name tool_input) "success" = false ∧
    ((api turn st.working).stop_reason = "tool_use" →
      chatLoopSt api impl turn (fuel + 1) st =
        chatLoopSt api impl (turn + 1) fuel
          { st with working := st.working ++
              [{ role := "assistant",
                 content := .blocks (api turn st.working).content },
               { role := "user",
                 content := .results
                   (collectToolResults impl (api turn st.working).content) }] }) ∧
    (∀ tid, CBlock.toolUse ⟨tid, tool_name, tool_input⟩ ∈ (api turn st.working).content →
      ({ tool_use_id := tid,
         content := dumps (.jobj (.cons "error"
           (.jstr ("Unknown tool: " ++ tool_name)) .nil)) } : ToolResultRec) ∈
        collectToolResults impl (api turn st.working).content) := by
  have hexec : execute_tool impl tool_name tool_input =
      .jobj (.cons "error" (.jstr ("Unknown tool: " ++ tool_name)) .nil) := by
    unfold execute_tool
    rw [hn]
    simp
  refine ⟨hexec, by rw [hexec]; rfl, by rw [hexec]; rfl, ?_, ?_⟩
  · intro hres
    simp only [chatLoopSt]
    rw [if_pos hres]
  · intro tid hmem
    unfold collectToolResults
    refine List.mem_filterMap.mpr ⟨CBlock.toolUse ⟨tid, tool_name, tool_input⟩, hmem, ?_⟩
    simp [hexec]

/-- C2 fails as stated: the unknown-tool payload of `execute_tool` is
`\x7b"error": "Unknown tool: ..."\x7d`; it contains no `success` field at
all, let alone `success: false`. -/
theorem claim_C2_counterexample :
    execute_tool (fun _ _ => Except.ok JVal.jnull) "bogus_tool" JVal.jnull =
      .jobj (.cons "error" (.jstr "Unknown tool: bogus_tool") .nil) ∧
    jHasField (execute_tool (fun _ _ => Except.ok JVal.jnull) "bogus_tool"
      JVal.jnull) "success" = false := by
  constructor
  · rfl
  · rfl

/-- Witness for C2 (amended) on a concrete unregistered tool call. -/
theorem claim_C2_witness :
    jHasField (execute_tool (fun _ _ => Except.ok JVal.jnull) "another_bogus"
      JVal.jnull) "error" = true ∧
    ({ tool_use_id := "id1",
       content := dumps (JVal.jobj (.cons "error"
         (.jstr "Unknown tool: another_bogus") .nil)) } : ToolResultRec) ∈
      collectToolResults (fun _ _ => Except.ok JVal.jnull)
        [CBlock.toolUse ⟨"id1", "another_bogus", JVal.jnull⟩] := by
  have h := claim_C2_amended (fun _ _ => Except.ok JVal.jnull) "another_bogus"
    (by decide) JVal.jnull
    (fun _ _ => { stop_reason := "tool_use",
                  content := [CBlock.toolUse ⟨"id1", "another_bogus", JVal.jnull⟩] })
    0 0 { caller := [], working := [] }
  exact ⟨h.2.1, h.2.2.2.2 "id1" (by simp)⟩

/-- C8 (amended): `format_error_for_user` is deterministic and total —
every error yields a non-empty user-facing string — and for every error
that carries no pre-set `user_message` (i.e. is not a `BotError`) whose
message contains "429", it returns the rate-limit message regardless of
the error class.  (A `BotError` whose message contains "429" instead
returns its pre-set `user_message` verbatim.) -/
theorem claim_C8_amended (error : PyError) (context : String) :
    format_error_for_user error context ≠ "" ∧
    (error.user_message = none → strHas error.msg "429" = true →
      format_error_for_user error context =
        "⏸️ Rate limit reached. Please wait a moment and try again.") := by
  have hrest : ∀ err ctx, format_error_for_user.formatRest err ctx ≠ "" := by
    intro err ctx
    simp only [format_error_for_user.formatRest]
    repeat' split
    all_goals first
      | decide
      | (next s hs => exact lookup_mappings_ne_empty _ _ hs)
      | (refine str_append_ne_empty _ _ ?_
         rw [String.length_append]
         have h9 : (0 : Nat) < "❌ Error ".length := by decide
         omega)
  constructor
  · unfold format_error_for_user
    split
    · next um heq =>
        split
        · next hne => exact hne
        · exact hrest _ _
    · exact hrest _ _
  · intro hnone h429
    simp only [format_error_for_user, format_error_for_user.formatRest, hnone,
      h429, Bool.or_true]
    simp

/-- C8 fails as stated: an `APIError` (a `BotError` subclass) whose
message contains "429" returns its pre-set default `user_message`, not
the rate-limit message. -/
theorem claim_C8_counterexample :
    strHas (mkBotError "APIError" "upstream returned HTTP 429" none).msg
      "429" = true ∧
    format_error_for_user (mkBotError "APIError" "upstream returned HTTP 429" none)
      "" = "Sorry, I encountered an error. Please try again." ∧
    format_error_for_user (mkBotError "APIError" "upstream returned HTTP 429" none)
      "" ≠ "⏸️ Rate limit reached. Please wait a moment and try again." := by
  refine ⟨by decide, by rfl, by decide⟩

/-- Witness for C8 (amended): totality on a plain `ValueError`, and the
429 routing on a non-`BotError` error. -/
theorem claim_C8_witness :
    format_error_for_user
      { className := "ValueError", msg := "boom", user_message := none } ""
      ≠ "" ∧
    format_error_for_user
      { className := "ValueError", msg := "status 429 from API",
        user_message := none } "sending" =
      "⏸️ Rate limit reached. Please wait a moment and try again." := by
  constructor
  · exact (claim_C8_amended
      { className := "ValueError", msg := "boom", user_message := none } "").1
  · exact (claim_C8_amended
      { className := "ValueError", msg := "status 429 from API",
        user_message := none } "sending").2 rfl (by decide)

/-- C6: the retry wrapper executes the operation at most
`max_retries + 1` times; when every attempt fails with a retryable error,
the delay before (0-indexed) attempt `k ≥ 1` is exactly
`initial_delay * exponential_base ^ (k - 1)` — the full schedule is
`[d0 * b ^ 0, ..., d0 * b ^ (max_retries - 1)]` — and the error observed
on the last attempt is the one propagated to the caller. -/
theorem claim_C6_retry_policy {ε V : Type} (max_retries : Nat)
    (initial_delay exponential_base : ℚ) (retryable : ε → Bool)
    (op : Nat → Except ε V) (err : Nat → ε)
    (hop : ∀ k, k ≤ max_retries →
      op k = .error (err k) ∧ retryable (err k) = true) :
    (∀ op2 : Nat → Except ε V,
      (retry_with_backoff max_retries initial_delay exponential_base
        retryable op2).attempts ≤ max_retries + 1) ∧
    retry_with_backoff max_retries initial_delay exponential_base retryable op =
      { result := .error (err max_retries)
        attempts := max_retries + 1
        delays := (List.range max_retries).map
          (fun k => initial_delay * exponential_base ^ k) } := by
  constructor
  · intro op2
    exact retryGo_attempts_le op2 retryable _ _ max_retries 0
  · have h := retryGo_all_fail op retryable initial_delay exponential_base err
      max_retries 0 (fun k h1 h2 => hop k (by omega))
    unfold retry_with_backoff
    rw [h]
    simp

/-- Witness for C6: `max_retries=3, initial_delay=1.0, exponential_base=2.0`
with an operation failing on every attempt sleeps exactly 1.0s, 2.0s, 4.0s
and propagates the error of attempt 3 (the 4th). -/
theorem claim_C6_witness :
    retry_with_backoff 3 (1 : ℚ) 2 (fun _ : Nat => true)
      (fun k => (Except.error k : Except Nat Unit)) =
      { result := Except.error 3, attempts := 4, delays := [1, 2, 4] } := by
  have h := (claim_C6_retry_policy 3 1 2 (fun _ => true)
    (fun k => (Except.error k : Except Nat Unit)) (fun k => k)
    (fun k _ => ⟨rfl, rfl⟩)).2
  rw [h]
  norm_num [List.range_succ]

/-- C7 (amended): only errors matched by the configured `exceptions`
tuple are retried — any other error propagates immediately and unchanged,
with no further attempts.  When a circuit breaker is composed with the
wrapper, the circuit-open error is subject to the same `exceptions` test:
with the decorator DEFAULT `exceptions=(Exception,)` it IS caught and
retried (the wrapper sleeps and re-attempts against the open breaker),
and it fails fast only when the configured tuple excludes it, as in the
repository's only breaker-composed usage (`exceptions=(APIError,)` for
the whisper breaker). -/
theorem claim_C7_amended {ε V : Type}
    (max_retries j : Nat) (initial_delay exponential_base : ℚ)
    (retryable : ε → Bool) (op : Nat → Except ε V) (err : Nat → ε) (e : ε)
    (cb : CircuitBreaker) (t : Int) (opOk : Nat → Bool) (times : Nat → Int)
    (retryableB : BreakerErr → Bool)
    (hj : j ≤ max_retries)
    (hpre : ∀ k, k < j → op k = .error (err k) ∧ retryable (err k) = true)
    (hej : op j = .error e) (hne : retryable e = false)
    (hs : cb.state = .OPEN) (hl : cb.last_failure_time = some t)
    (htm : ∀ k, times k - t ≤ cb.timeout)
    (hnb : retryableB .circuitOpen = false) :
    retry_with_backoff max_retries initial_delay exponential_base retryable op =
      { result := .error e
        attempts := j + 1
        delays := (List.range j).map
          (fun k => initial_delay * exponential_base ^ k) } ∧
    retryWithBreaker max_retries initial_delay exponential_base
        (fun _ => true) cb opOk times =
      { result := .error .circuitOpen
        attempts := max_retries + 1
        delays := (List.range max_retries).map
          (fun k => initial_delay * exponential_base ^ k)
        final := cb } ∧
    retryWithBreaker max_retries initial_delay exponential_base
        retryableB cb opOk times =
      { result := .error .circuitOpen, attempts := 1, delays := []
        final := cb } := by
  refine ⟨?_, ?_, ?_⟩
  · have h := retryGo_abort op retryable initial_delay exponential_base err e
      j max_retries 0 hj (fun k h1 h2 => hpre k (by omega))
      (by rw [Nat.zero_add]; exact hej) hne
    unfold retry_with_backoff
    rw [h]
    simp
  · have h := retryCBGo_open_retried opOk times initial_delay exponential_base
      cb t hs hl max_retries 0 (fun k h1 h2 => htm k)
    unfold retryWithBreaker
    rw [h]
    simp
  · exact retryCBGo_failfast opOk times retryableB initial_delay
      exponential_base cb t hs hl hnb max_retries 0 (htm 0)

/-- C7 fails as stated: with the decorator default
`exceptions=(Exception,)` (every error retryable) and the whisper-style
breaker OPEN inside its cooldown, the wrapper does NOT fail fast — it
re-attempts 3 times (attempts = 3, not 1) and sleeps the backoff delays
0.5s and 1.0s before giving up with the circuit-open error. -/
theorem claim_C7_counterexample :
    (retryWithBreaker 2 (1/2 : ℚ) 2 (fun _ => true)
      { failure_threshold := 3, timeout := 30, failure_count := 3,
        last_failure_time := some 0, state := .OPEN }
      (fun _ => true) (fun _ => 1)).attempts = 3 ∧
    (retryWithBreaker 2 (1/2 : ℚ) 2 (fun _ => true)
      { failure_threshold := 3, timeout := 30, failure_count := 3,
        last_failure_time := some 0, state := .OPEN }
      (fun _ => true) (fun _ => 1)).attempts ≠ 1 ∧
    (retryWithBreaker 2 (1/2 : ℚ) 2 (fun _ => true)
      { failure_threshold := 3, timeout := 30, failure_count := 3,
        last_failure_time := some 0, state := .OPEN }
      (fun _ => true) (fun _ => 1)).delays = [1/2, 1] ∧
    (retryWithBreaker 2 (1/2 : ℚ) 2 (fun _ => true)
      { failure_threshold := 3, timeout := 30, failure_count := 3,
        last_failure_time := some 0, state := .OPEN }
      (fun _ => true) (fun _ => 1)).result =
      Except.error BreakerErr.circuitOpen := by
  refine ⟨?_, ?_, ?_, ?_⟩ <;> norm_num [retryWithBreaker, retryCBGo, call,
    cbPre, cbRun]

/-- Witness for C7 (amended): a non-retryable error at attempt 1 after a
retryable one, and the two breaker compositions, all at concrete
configurations. -/
theorem claim_C7_witness :
    retry_with_backoff 2 (1 : ℚ) 2 (fun k : Nat => k == 0)
      (fun k => (Except.error k : Except Nat Unit)) =
      { result := Except.error 1, attempts := 2, delays := [1] } ∧
    retryWithBreaker 2 (1 : ℚ) 2 (fun _ => true)
      { failure_threshold := 3, timeout := 30, failure_count := 3,
        last_failure_time := some 0, state := .OPEN }
      (fun _ => true) (fun _ => 1) =
      { result := Except.error BreakerErr.circuitOpen, attempts := 3,
        delays := [1, 2],
        final := { failure_threshold := 3, timeout := 30, failure_count := 3,
                   last_failure_time := some 0, state := .OPEN } } ∧
    retryWithBreaker 2 (1 : ℚ) 2
      (fun e => match e with | BreakerErr.opErr => true | _ => false)
      { failure_threshold := 3, timeout := 30, failure_count := 3,
        last_failure_time := some 0, state := .OPEN }
      (fun _ => true) (fun _ => 1) =
      { result := Except.error BreakerErr.circuitOpen, attempts := 1,
        delays := [],
        final := { failure_threshold := 3, timeout := 30, failure_count := 3,
                   last_failure_time := some 0, state := .OPEN } } := by
  have h := claim_C7_amended 2 1 1 2 (fun k : Nat => k == 0)
    (fun k => (Except.error k : Except Nat Unit)) (fun k => k) 1
    { failure_threshold := 3, timeout := 30, failure_count := 3,
      last_failure_time := some 0, state := .OPEN }
    0 (fun _ => true) (fun _ => 1)
    (fun e => match e with | BreakerErr.opErr => true | _ => false)
    (by omega)
    (fun k hk => by
      have hk0 : k = 0 := by omega
      subst hk0
      exact ⟨rfl, rfl⟩)
    rfl rfl rfl rfl (fun k => by norm_num) rfl
  refine ⟨?_, ?_, ?_⟩
  · rw [h.1]
    norm_num [List.range_succ]
  · rw [h.2.1]
    norm_num [List.range_succ]
  · exact h.2.2

end WhatsappBot
